import Mathlib

/-!
Verification of the prospector lead-generation app
(`src/prospector_smtp_app.py`) against its specification.

The Python source is shallowly embedded: pure helpers become Lean
functions on `String` / `List Char`; the Streamlit session-state lead
table becomes an explicit `List Lead` threaded through operations; HTTP
responses become explicit inputs to the search adapters; the two
regular expressions `EMAIL_RE` and `PHONE_RE` are embedded as concrete
backtracking matchers with Python `re` semantics.
-/

set_option maxRecDepth 4000
set_option linter.unusedVariables false

namespace Prospector

/-! ### Python string helpers -/

/-- Python `str` whitespace (the six characters removed by `str.strip()`). -/
def pyWhitespace (c : Char) : Bool :=
  c = ' ' || c = '\t' || c = '\n' || c = '\r' || c = '\x0b' || c = '\x0c'

/-- Python `s.strip()`: drop leading and trailing whitespace. -/
def pyStrip (s : String) : String :=
  ⟨((s.data.dropWhile pyWhitespace).reverse.dropWhile pyWhitespace).reverse⟩

/-- Python `s.lower()` (ASCII, as every string in this app is). -/
def pyLower (s : String) : String := ⟨s.data.map Char.toLower⟩

/-- Python `s[:n]`: the first `n` characters. -/
def pyTake (n : Nat) (s : String) : String := ⟨s.data.take n⟩

/-- Python `s.endswith(suffix)`. -/
def pyEndsWith (suffix s : String) : Bool := suffix.data.isSuffixOf s.data

/-- Python substring containment `sub in l` on character lists. -/
def containsSub (sub : List Char) : List Char → Bool
  | [] => sub.isEmpty
  | c :: rest => sub.isPrefixOf (c :: rest) || containsSub sub rest

/-- `SOCIAL_DOMAINS` tuple from the source. -/
def SOCIAL_DOMAINS : List String :=
  ["facebook.com", "instagram.com", "linkedin.com", "twitter.com", "x.com",
   "youtube.com", "yelp.com", "angieslist.com", "houzz.com", "pinterest.com",
   "tiktok.com"]

/-! ### Network-location extraction (stdlib `urllib.parse.urlparse`) -/

/-- Characters allowed after the first letter of a URL scheme. -/
def isSchemeChar (c : Char) : Bool :=
  c.isAlphanum || c = '+' || c = '-' || c = '.'

/-- Modelled from the spec: scheme removal performed by the standard
library `urllib.parse.urlparse` (not part of src). A leading
`scheme:` is removed when the part before the first colon is a
non-empty run starting with a letter followed by letters, digits,
`+`, `-` or `.`; otherwise the string is unchanged. -/
def dropScheme (l : List Char) : List Char :=
  let pre := l.takeWhile (fun c => c ≠ ':')
  match l.drop pre.length with
  | ':' :: after =>
    match pre with
    | c :: cs => if c.isAlpha && cs.all isSchemeChar then after else l
    | [] => l
  | _ => l

/-- Modelled from the spec: network-location extraction performed by the
standard library `urllib.parse.urlparse` (not part of src). The network
location is the substring after a leading `//` authority marker (which
may follow a `scheme:` prefix), up to the next `/`, `?` or `#`; a URL
without such a marker has an empty network location. -/
def netloc_of (u : String) : String :=
  match dropScheme u.data with
  | '/' :: '/' :: rest =>
    ⟨rest.takeWhile (fun c => c ≠ '/' && c ≠ '?' && c ≠ '#')⟩
  | _ => ""

/-- `domain_of` from the source: the lowercased network location, with
the catch-all exception handler modelled by totality of `netloc_of`. -/
def domain_of (u : String) : String := pyLower (netloc_of u)

/-! ### Site filter -/

/-- `looks_like_business_site` from the source. -/
def looks_like_business_site (u : String) : Bool :=
  let d := domain_of u
  if d = "" then false
  else if SOCIAL_DOMAINS.any (fun s => containsSub s.data d.data) then false
  else pyEndsWith ".com" d || pyEndsWith ".net" d || pyEndsWith ".org" d

/-- The site-filter contract in the spec's words: accept exactly the
URLs with a non-empty network location, no blocklisted social/directory
domain substring, and a `.com`, `.net` or `.org` suffix. -/
def isEligible_spec (u : String) : Prop :=
  domain_of u ≠ "" ∧
  (∀ s ∈ SOCIAL_DOMAINS, containsSub s.data (domain_of u).data = false) ∧
  (pyEndsWith ".com" (domain_of u) = true ∨ pyEndsWith ".net" (domain_of u) = true ∨
    pyEndsWith ".org" (domain_of u) = true)

/-! ### `EMAIL_RE` — a faithful matcher for
`\b[A-Za-z0-9._%+-]+@[A-Za-z0-9.-]+\.[A-Za-z]{2,}\b` with Python `re`
greedy-backtracking semantics. -/

/-- Python regex word characters (`\w` restricted to ASCII input). -/
def isWordChar (c : Char) : Bool := c.isAlphanum || c = '_'

/-- The local-part character class `[A-Za-z0-9._%+-]`. -/
def isLocalChar (c : Char) : Bool :=
  c.isAlphanum || c = '.' || c = '_' || c = '%' || c = '+' || c = '-'

/-- The domain character class `[A-Za-z0-9.-]`. -/
def isDomainChar (c : Char) : Bool := c.isAlphanum || c = '.' || c = '-'

/-- Word-ness of an optional character (`none` = outside the string). -/
def isWordOpt : Option Char → Bool
  | some c => isWordChar c
  | none => false

/-- Match `\.[A-Za-z]{2,}\b` after a greedy `[A-Za-z0-9.-]+`, trying the
dot at position `n` and backtracking towards position 1. Since `.` is in
the domain class, the engine's backtracking over the greedy `+` reduces
to scanning dot positions downward; inside `[A-Za-z]{2,}` only the
maximal alpha run can satisfy the trailing `\b` (a shorter run is
followed by another letter, which is a word character). Returns the
consumed length after the `@`. -/
def emailDomainTry (l : List Char) : Nat → Option Nat
  | 0 => none
  | n + 1 =>
    (if l.get? (n + 1) = some '.' then
      let after := l.drop (n + 2)
      let m := (after.takeWhile Char.isAlpha).length
      if 2 ≤ m && !isWordOpt (after.get? m) then some (n + 2 + m)
      else none
    else none).orElse (fun _ => emailDomainTry l n)

/-- Match the whole domain part `[A-Za-z0-9.-]+\.[A-Za-z]{2,}\b`,
starting the dot search at the end of the maximal domain-class run. -/
def emailDomain (l : List Char) : Option Nat :=
  emailDomainTry l (l.takeWhile isDomainChar).length

/-- Match `EMAIL_RE` at the current position, `prev` being the character
just before it (`none` at the start of the string). Returns the length
of the match. The greedy `[A-Za-z0-9._%+-]+` cannot backtrack usefully
because `@` is not in the class. -/
def matchEmailHere (prev : Option Char) (l : List Char) : Option Nat :=
  if isWordOpt prev = isWordOpt l.head? then none
  else
    let a := (l.takeWhile isLocalChar).length
    if a = 0 then none
    else if l.get? a = some '@' then
      (emailDomain (l.drop (a + 1))).map (fun t => a + 1 + t)
    else none

/-- `EMAIL_RE.match(s)`: does the pattern match at the start of `s`? -/
def email_match (s : String) : Bool :=
  (matchEmailHere none s.data).isSome

/-- First `EMAIL_RE` match in the text (head of `EMAIL_RE.findall`),
scanning positions left to right as the `re` module does. -/
def findFirstEmail : Option Char → List Char → Option String
  | _, [] => none
  | prev, c :: rest =>
    match matchEmailHere prev (c :: rest) with
    | some n => some ⟨(c :: rest).take n⟩
    | none => findFirstEmail (some c) rest

/-- First email in a document text (`EMAIL_RE.findall(text)[0]`). -/
def firstEmail (text : String) : Option String := findFirstEmail none text.data

/-! ### `PHONE_RE` — a faithful matcher for
`\+?1?[\s\-\.\(]?\d{3}[\)\s\-\.\)]?\s?\d{3}\s?[\-\.\s]?\d{4}`. -/

/-- Python regex whitespace class `\s` (ASCII input). -/
def isSpaceRe (c : Char) : Bool :=
  c = ' ' || c = '\t' || c = '\n' || c = '\r' || c = '\x0b' || c = '\x0c'

/-- The class `[\s\-\.\(]`. -/
def isPhoneClass1 (c : Char) : Bool := isSpaceRe c || c = '-' || c = '.' || c = '('

/-- The class `[\)\s\-\.\)]`. -/
def isPhoneClass2 (c : Char) : Bool := c = ')' || isSpaceRe c || c = '-' || c = '.'

/-- The class `[\-\.\s]`. -/
def isPhoneClass3 (c : Char) : Bool := c = '-' || c = '.' || isSpaceRe c

/-- Greedy optional single-character atom `X?`: try consuming one
matching character first, fall back to consuming nothing, as the `re`
backtracking engine does. `k` is the continuation on the rest. -/
def optClass (p : Char → Bool) (l : List Char) (k : List Char → Option Nat) :
    Option Nat :=
  match l with
  | c :: rest =>
    if p c then
      match k rest with
      | some n => some (n + 1)
      | none => k (c :: rest)
    else k (c :: rest)
  | [] => k []

/-- Fixed repetition `\d{n}`: consume exactly `n` digits. -/
def digitsThen : Nat → List Char → (List Char → Option Nat) → Option Nat
  | 0, l, k => k l
  | n + 1, c :: rest, k =>
    if c.isDigit then (digitsThen n rest k).map (· + 1) else none
  | _ + 1, [], _ => none

/-- Match `PHONE_RE` at the current position; returns the match length. -/
def matchPhoneHere (l : List Char) : Option Nat :=
  optClass (· = '+') l fun l1 =>
  optClass (· = '1') l1 fun l2 =>
  optClass isPhoneClass1 l2 fun l3 =>
  digitsThen 3 l3 fun l4 =>
  optClass isPhoneClass2 l4 fun l5 =>
  optClass isSpaceRe l5 fun l6 =>
  digitsThen 3 l6 fun l7 =>
  optClass isSpaceRe l7 fun l8 =>
  optClass isPhoneClass3 l8 fun l9 =>
  digitsThen 4 l9 fun _ => some 0

/-- First `PHONE_RE` match in the text (head of `PHONE_RE.findall`). -/
def findFirstPhone : List Char → Option String
  | [] => none
  | c :: rest =>
    match matchPhoneHere (c :: rest) with
    | some n => some ⟨(c :: rest).take n⟩
    | none => findFirstPhone rest

/-- First phone in a document text (`PHONE_RE.findall(text)[0]`). -/
def firstPhone (text : String) : Option String := findFirstPhone text.data

/-! ### Search adapters

HTTP is an external effect: a response is modelled as an explicit input
`Option (Nat × Option Json)` — `none` for a transport error (timeout,
connection failure), otherwise the status code paired with the parsed
JSON body (`none` for a body that is not valid JSON). Exceptions inside
the `try` block are modelled by `Option`: an inner result of `none`
means a raised exception, which the catch-all handler turns into `[]`. -/

/-- Parsed JSON values. -/
inductive Json where
  | jnull
  | jbool (b : Bool)
  | jnum (n : Int)
  | jstr (s : String)
  | jarr (items : List Json)
  | jdict (entries : List (String × Json))

/-- Python truthiness of a JSON value. -/
def jTruthy : Json → Bool
  | .jnull => false
  | .jbool b => b
  | .jnum n => n ≠ 0
  | .jstr s => s ≠ ""
  | .jarr l => !l.isEmpty
  | .jdict f => !f.isEmpty

/-- First binding of a key in a JSON object field list (`dict.get`). -/
def lookupField : List (String × Json) → String → Option Json
  | [], _ => none
  | (k, v) :: rest, key => if k = key then some v else lookupField rest key

/-- The Bing comprehension `[v["url"] for v in value if v.get("url")]`:
`v.get` on a non-dict raises (`none`); truthy non-string url values are
kept as-is and can never pass the site filter, so they are dropped
here, mirroring `domain_of`'s catch-all returning `""` for them. -/
def urlListComp : List Json → Option (List String)
  | [] => some []
  | v :: rest =>
    match v with
    | .jdict f =>
      match urlListComp rest with
      | none => none
      | some tail =>
        match lookupField f "url" with
        | some u =>
          if jTruthy u then
            match u with
            | .jstr s => some (s :: tail)
            | _ => some tail
          else some tail
        | none => some tail
    | _ => none

/-- The url extraction inside `search_bing_api`'s `try` block:
`(data.get("webPages") or {}).get("value", [])` followed by the url
comprehension; `none` models a raised exception (`.get` on a non-dict,
iterating a non-list). -/
def bing_urls (data : Json) : Option (List String) :=
  match data with
  | .jdict fields =>
    let wp :=
      match lookupField fields "webPages" with
      | some j => if jTruthy j then j else Json.jdict []
      | none => Json.jdict []
    match wp with
    | .jdict wfields =>
      match (lookupField wfields "value").getD (Json.jarr []) with
      | .jarr vs => urlListComp vs
      | _ => none
    | _ => none
  | _ => none

/-- `search_bing_api` from the source, over an explicit HTTP response.
`raise_for_status` raises exactly for status codes 400–599. -/
def search_bing_api (query key : String) (count : Nat)
    (resp : Option (Nat × Option Json)) : List String :=
  if key = "" then []
  else
    match resp with
    | none => []
    | some (status, body) =>
      if 400 ≤ status ∧ status < 600 then []
      else
        match body with
        | none => []
        | some data =>
          match bing_urls data with
          | none => []
          | some urls => (urls.filter looks_like_business_site).take count

/-- The membership test `"value" in data["webPages"]`: defined for
dicts (key membership), lists (element membership) and strings
(substring); anything else raises (`none`). -/
def pyInWebPages : Json → Option Bool
  | .jdict f => some (lookupField f "value").isSome
  | .jarr l => some (l.any (fun j => match j with | .jstr s => s = "value" | _ => false))
  | .jstr s => some (containsSub "value".data s.data)
  | _ => none

/-- The serp comprehension over `data["results"]`:
`u = item.get("url") or item.get("link"); if u: urls.append(u)`. -/
def serpResultsComp : List Json → Option (List String)
  | [] => some []
  | item :: rest =>
    match item with
    | .jdict f =>
      match serpResultsComp rest with
      | none => none
      | some tail =>
        let u0 :=
          match lookupField f "url" with
          | some u => if jTruthy u then u else (lookupField f "link").getD Json.jnull
          | none => (lookupField f "link").getD Json.jnull
        if jTruthy u0 then
          match u0 with
          | .jstr s => some (s :: tail)
          | _ => some tail
        else some tail
    | _ => none

/-- The bare-list branch of `search_serp_api`: strings are appended,
dicts contribute `url`/`link`, all other items are skipped. -/
def serpBareList : List Json → Option (List String)
  | [] => some []
  | item :: rest =>
    match serpBareList rest with
    | none => none
    | some tail =>
      match item with
      | .jstr s => some (s :: tail)
      | .jdict f =>
        let u0 :=
          match lookupField f "url" with
          | some u => if jTruthy u then u else (lookupField f "link").getD Json.jnull
          | none => (lookupField f "link").getD Json.jnull
        if jTruthy u0 then
          match u0 with
          | .jstr s => some (s :: tail)
          | _ => some tail
        else some tail
      | _ => some tail

/-- The url extraction inside `search_serp_api`'s `try` block. -/
def serp_urls (data : Json) : Option (List String) :=
  match data with
  | .jdict fields =>
    match lookupField fields "webPages" with
    | some wp =>
      match pyInWebPages wp with
      | none => none
      | some true =>
        match wp with
        | .jdict wfields =>
          match (lookupField wfields "value").getD Json.jnull with
          | .jarr vs => urlListComp vs
          | _ => none
        | _ => none
      | some false =>
        match lookupField fields "results" with
        | some (.jarr rs) => serpResultsComp rs
        | _ => some []
    | none =>
      match lookupField fields "results" with
      | some (.jarr rs) => serpResultsComp rs
      | _ => some []
  | .jarr items => serpBareList items
  | _ => some []

/-- `search_serp_api` from the source, over an explicit HTTP response:
empty base url or key short-circuits to `[]`; transport errors, 4xx/5xx
statuses, malformed JSON and extraction exceptions all produce `[]`
through the catch-all handler; otherwise the extracted urls are
filtered through the site filter (with Python truthiness on each url)
and truncated to `count`. -/
def search_serp_api (query base_url key : String) (count : Nat)
    (resp : Option (Nat × Option Json)) : List String :=
  if base_url = "" ∨ key = "" then []
  else
    match resp with
    | none => []
    | some (status, body) =>
      if 400 ≤ status ∧ status < 600 then []
      else
        match body with
        | none => []
        | some data =>
          match serp_urls data with
          | none => []
          | some urls =>
            (urls.filter (fun u => u ≠ "" && looks_like_business_site u)).take count

/-- The key argument expression of the generic SERP call site:
`key=SERRP_KEY if (SERRP_KEY:=SERP_KEY) else ""`. Python evaluates the
condition of a conditional expression first, so the walrus assignment
to `SERRP_KEY` happens before the true-branch reads it. -/
def serp_key_argument (SERP_KEY : String) : String :=
  let SERRP_KEY := SERP_KEY
  if SERRP_KEY ≠ "" then SERRP_KEY else ""

/-! ### Lead store -/

/-- A row of the `st.session_state.leads` table. -/
structure Lead where
  Company : String
  Email : String
  Website : String
  Phone : String
  Source : String
deriving DecidableEq

/-- The lowercased emails of a store (`df["Email"].jstr.lower()`). -/
def lowerEmails (df : List Lead) : List String :=
  df.map (fun l => pyLower l.Email)

/-- `upsert_lead` from the source. `name`/`phone` are `Option` because
the extractor can pass `None` (`name or ""`, `phone or ""`); an empty
email is a no-op; so is an email whose lowercase form is already in the
store; otherwise a row is appended with the email stripped. -/
def upsert_lead (name : Option String) (email : String) (website : String)
    (phone : Option String) (source : String) (df : List Lead) : List Lead :=
  if email = "" then df
  else if pyLower email ∈ lowerEmails df then df
  else df ++ [⟨name.getD "", pyStrip email, website, phone.getD "", source⟩]

/-! ### CSV import / export -/

/-- An external CSV row after header normalization; `none` models a
missing column (`row.get(col, "")`). -/
structure CsvRow where
  Company : Option String
  Email : Option String
  Website : Option String
  Phone : Option String
deriving DecidableEq

/-- The email a CSV row offers: `str(row.get("Email","") or "").strip()`. -/
def rowEmail (r : CsvRow) : String := pyStrip (r.Email.getD "")

/-- The lead inserted for an accepted CSV row: source tag `"import"`,
company truncated to 120 characters, missing fields defaulted to `""`. -/
def importLead (r : CsvRow) : Lead :=
  ⟨pyTake 120 (r.Company.getD ""), rowEmail r, r.Website.getD "",
    r.Phone.getD "", "import"⟩

/-- The CSV import loop from the source: `existing` is the running set
of lowercased emails (initialized from the current store), `imported`
the running count; a row is skipped when its email is empty, fails
`EMAIL_RE.match`, or its lowercase form is already present. -/
def import_rows (df : List Lead) (existing : List String) (imported : Nat) :
    List CsvRow → List Lead × Nat
  | [] => (df, imported)
  | r :: rest =>
    let email := rowEmail r
    if email = "" ∨ email_match email = false then
      import_rows df existing imported rest
    else if pyLower email ∈ existing then
      import_rows df existing imported rest
    else
      import_rows (df ++ [importLead r]) (existing ++ [pyLower email])
        (imported + 1) rest

/-- The `Import leads.csv` handler: seed `existing` from the store. -/
def import_leads (df : List Lead) (rows : List CsvRow) : List Lead × Nat :=
  import_rows df (lowerEmails df) 0 rows

/-- The `Download leads.csv` handler, at the row level: every stored
lead becomes a CSV row with all four data columns present. -/
def export_rows (df : List Lead) : List CsvRow :=
  df.map (fun l => ⟨some l.Company, some l.Email, some l.Website, some l.Phone⟩)

/-! ### Extractor -/

/-- `s.split(sep)[0]`: the part of `s` before the first occurrence of
`sep` (all of `s` when `sep` does not occur). -/
def splitFirst (sep : List Char) : List Char → List Char
  | [] => []
  | c :: rest =>
    if sep.isPrefixOf (c :: rest) then [] else c :: splitFirst sep rest

/-- The company name computed from a page title:
`title.split(" | ")[0].split(" – ")[0].strip()[:120]`. -/
def company_from_title (t : String) : String :=
  pyTake 120 (pyStrip ⟨splitFirst " – ".data (splitFirst " | ".data t.data)⟩)

/-- Python truthiness of the running `company` value. -/
def companyTruthy : Option String → Bool
  | some s => s ≠ ""
  | none => false

/-- `extract_company_info` from the source, for a successfully fetched
page. HTML parsing is the external BeautifulSoup collaborator, so the
page is given by its parsed observables: the title string (if the page
has a `<title>` with a string), the stripped text of the first `<h1>`
(if any), and the visible document text. -/
def extract_company_info (title h1 : Option String) (text : String) :
    Option String × Option String × Option String :=
  let company0 : Option String := title.map company_from_title
  let company : Option String :=
    if companyTruthy company0 then company0
    else
      match h1 with
      | some h => if h ≠ "" then some (pyTake 120 h) else company0
      | none => company0
  (company, firstEmail text, firstPhone text)

/-- Python `s.rstrip("/")`. -/
def pyRstripSlash (s : String) : String :=
  ⟨(s.data.reverse.dropWhile (· = '/')).reverse⟩

/-- `try_candidate_pages` from the source. -/
def try_candidate_pages (base_url : String) : List String :=
  let root := pyRstripSlash base_url
  [base_url, root ++ "/contact", root ++ "/contact-us", root ++ "/about",
    root ++ "/team"]

/-- Truthiness of the extracted email (`if email:`). -/
def emailTruthy : Option String → Bool
  | some e => e ≠ ""
  | none => false

/-- The inner candidate-page loop of the `Search & Extract` handler,
with the extractor abstracted as an oracle `f` from page URL to
`(name, email, phone)`. Returns the pages probed in order, the number
of inter-probe sleeps executed (one after every probe that yielded no
email; the `break` on success skips the sleep), and the first page
yielding a truthy email together with its extraction. -/
def probe_pages (f : String → Option String × Option String × Option String) :
    List String →
      List String × Nat × Option (String × (Option String × Option String × Option String))
  | [] => ([], 0, none)
  | p :: rest =>
    if emailTruthy (f p).2.1 then ([p], 0, some (p, f p))
    else
      ((p :: (probe_pages f rest).1, (probe_pages f rest).2.1 + 1,
        (probe_pages f rest).2.2))

/-- One base site of the `Search & Extract` outer loop: probe the
candidate pages; on the first email, upsert the lead (website = base)
and increment the `added` counter. -/
def scan_step (f : String → Option String × Option String × Option String)
    (source : String) (acc : List Lead × Nat) (base : String) : List Lead × Nat :=
  match (probe_pages f (try_candidate_pages base)).2.2 with
  | some (_, (name, email, phone)) =>
    (upsert_lead name (email.getD "") base phone source acc.1, acc.2 + 1)
  | none => acc

/-- The `Search & Extract` scan over all candidate base sites. -/
def scan_sites (f : String → Option String × Option String × Option String)
    (source : String) (df : List Lead) (bases : List String) : List Lead × Nat :=
  bases.foldl (scan_step f source) (df, 0)

/-! ### Campaign loop -/

/-- The `Send campaign now` loop, with SMTP abstracted as a success
oracle `ok` (a failing send raises; the handler catches and continues).
Returns the successfully sent recipients in order; `sent` is the
running success count checked against the daily cap at the top of the
loop. -/
def send_campaign (daily_cap : Nat) (ok : String → Bool) :
    List String → Nat → List String
  | [], _ => []
  | e :: rest, sent =>
    if daily_cap ≤ sent then []
    else if ok e then e :: send_campaign daily_cap ok rest (sent + 1)
    else send_campaign daily_cap ok rest sent

/-! ### Lead-store operation sequences (for the store invariant) -/

/-- An operation on the lead store: an upsert from the scan pipeline or
a CSV import. -/
inductive LeadOp where
  | upsert (name : Option String) (email : String) (website : String)
      (phone : Option String) (source : String)
  | importCsv (rows : List CsvRow)

/-- Apply one operation to the store. -/
def applyOp (df : List Lead) : LeadOp → List Lead
  | .upsert name email website phone source =>
    upsert_lead name email website phone source df
  | .importCsv rows => (import_leads df rows).1

/-- Run a sequence of operations from the empty store. -/
def runOps (ops : List LeadOp) : List Lead := ops.foldl applyOp []

/-- An upsert whose email is its own stripped form (every email the
application passes to `upsert_lead` is an `EMAIL_RE` match and hence
whitespace-free); imports strip internally. -/
def opClean : LeadOp → Bool
  | .upsert _ email _ _ _ => pyStrip email = email
  | .importCsv _ => true

/-! ### Helper lemmas -/

/-- The campaign loop sends exactly the first `cap - sent` recipients
that the SMTP oracle accepts: failures are skipped, successes are
counted against the cap. -/
theorem send_campaign_take (cap : Nat) (ok : String → Bool) :
    ∀ (l : List String) (sent : Nat),
      send_campaign cap ok l sent = (l.filter ok).take (cap - sent) := by
  intro l
  induction l with
  | nil => intro sent; simp [send_campaign]
  | cons e rest ih =>
    intro sent
    by_cases hc : cap ≤ sent
    · simp [send_campaign, hc, Nat.sub_eq_zero_of_le hc]
    · by_cases ho : ok e
      · have h1 : cap - sent = (cap - (sent + 1)) + 1 := by omega
        simp [send_campaign, hc, ho, ih, h1]
      · simp [send_campaign, hc, ho, ih]

/-- The index of the first candidate page whose extraction yields a
truthy email (the list length when there is none). -/
def foundIdx (f : String → Option String × Option String × Option String)
    (l : List String) : Nat :=
  l.findIdx (fun p => emailTruthy (f p).2.1)

/-- Characterization of the candidate-page loop: it probes exactly the
pages up to and including the first success, sleeps once per failed
probe, and reports the first page with a truthy email. -/
theorem probe_pages_eq (f : String → Option String × Option String × Option String) :
    ∀ l : List String,
      probe_pages f l =
        (l.take (foundIdx f l + 1), min (foundIdx f l) l.length,
          (l.get? (foundIdx f l)).map (fun p => (p, f p))) := by
  intro l
  induction l with
  | nil => simp [probe_pages, foundIdx]
  | cons p rest ih =>
    by_cases hp : emailTruthy (f p).2.1
    · simp [probe_pages, hp, foundIdx, List.findIdx_cons]
    · have hk : foundIdx f (p :: rest) = foundIdx f rest + 1 := by
        simp [foundIdx, List.findIdx_cons, hp]
      simp [probe_pages, hp, ih, hk, Nat.succ_min_succ]

/-- Upserting an email that equals its own stripped form preserves the
no-duplicate invariant on lowercased emails. -/
theorem upsert_nodup (name : Option String) (email website : String)
    (phone : Option String) (source : String) (df : List Lead)
    (hc : pyStrip email = email) (hnd : (lowerEmails df).Nodup) :
    (lowerEmails (upsert_lead name email website phone source df)).Nodup := by
  unfold upsert_lead
  split_ifs with h1 h2
  · exact hnd
  · exact hnd
  · have hrw :
        lowerEmails (df ++ [⟨name.getD "", pyStrip email, website, phone.getD "", source⟩]) =
          lowerEmails df ++ [pyLower email] := by
      simp [lowerEmails, hc]
    rw [hrw]
    simp [List.nodup_append, hnd, h2]

/-- After upserting a stripped non-empty email, its lowercase form is
in the store's lowercased email list. -/
theorem upsert_mem_lower (name : Option String) (email website : String)
    (phone : Option String) (source : String) (df : List Lead)
    (hc : pyStrip email = email) (he : email ≠ "") :
    pyLower email ∈ lowerEmails (upsert_lead name email website phone source df) := by
  unfold upsert_lead
  rw [if_neg he]
  by_cases hm : pyLower email ∈ lowerEmails df
  · rw [if_pos hm]; exact hm
  · rw [if_neg hm]
    simp [lowerEmails, hc]

/-- Upserting an email whose lowercase form is already present (or an
empty email) leaves the store unchanged. -/
theorem upsert_noop (name : Option String) (email website : String)
    (phone : Option String) (source : String) (df : List Lead)
    (hm : email = "" ∨ pyLower email ∈ lowerEmails df) :
    upsert_lead name email website phone source df = df := by
  unfold upsert_lead
  rcases hm with h | h
  · rw [if_pos h]
  · by_cases hz : email = ""
    · rw [if_pos hz]
    · rw [if_neg hz, if_pos h]

/-- Characterization of the CSV import loop: the final store is the
initial one followed by the accepted rows, the imported count is the
number of accepted rows, and every accepted row carries the `"import"`
source tag, a non-empty `EMAIL_RE`-valid email whose lowercase form was
not in the running duplicate set, and comes from some input row. -/
theorem import_rows_spec (rows : List CsvRow) :
    ∀ (df : List Lead) (ex : List String) (n : Nat),
      ∃ new : List Lead,
        import_rows df ex n rows = (df ++ new, n + new.length) ∧
        ∀ l ∈ new, l.Source = "import" ∧ email_match l.Email = true ∧
          l.Email ≠ "" ∧ pyLower l.Email ∉ ex ∧ ∃ r ∈ rows, l = importLead r := by
  induction rows with
  | nil =>
    intro df ex n
    exact ⟨[], by simp [import_rows], by simp⟩
  | cons r rest ih =>
    intro df ex n
    unfold import_rows
    by_cases hskip : rowEmail r = "" ∨ email_match (rowEmail r) = false
    · rw [if_pos hskip]
      obtain ⟨new, heq, hprops⟩ := ih df ex n
      refine ⟨new, heq, fun l hl => ?_⟩
      obtain ⟨h1, h2, h3, h4, rr, hrr, hlr⟩ := hprops l hl
      exact ⟨h1, h2, h3, h4, rr, List.mem_cons_of_mem _ hrr, hlr⟩
    · rw [if_neg hskip]
      push_neg at hskip
      obtain ⟨hne, hmatch⟩ := hskip
      by_cases hdup : pyLower (rowEmail r) ∈ ex
      · rw [if_pos hdup]
        obtain ⟨new, heq, hprops⟩ := ih df ex n
        refine ⟨new, heq, fun l hl => ?_⟩
        obtain ⟨h1, h2, h3, h4, rr, hrr, hlr⟩ := hprops l hl
        exact ⟨h1, h2, h3, h4, rr, List.mem_cons_of_mem _ hrr, hlr⟩
      · rw [if_neg hdup]
        obtain ⟨new, heq, hprops⟩ :=
          ih (df ++ [importLead r]) (ex ++ [pyLower (rowEmail r)]) (n + 1)
        refine ⟨importLead r :: new, ?_, fun l hl => ?_⟩
        · rw [heq]
          refine Prod.ext ?_ ?_
          · simp [List.append_assoc]
          · simp; omega
        · rcases List.mem_cons.mp hl with h | h
          · subst h
            refine ⟨rfl, ?_, hne, hdup, r, List.mem_cons_self r rest, rfl⟩
            simpa [importLead, Bool.not_eq_false] using hmatch
          · obtain ⟨h1, h2, h3, h4, rr, hrr, hlr⟩ := hprops l h
            refine ⟨h1, h2, h3, fun hmem => h4 (List.mem_append_left _ hmem),
              rr, List.mem_cons_of_mem _ hrr, hlr⟩

/-- The CSV import loop preserves the no-duplicate invariant when the
running duplicate set covers the store's lowercased emails. -/
theorem import_rows_nodup (rows : List CsvRow) :
    ∀ (df : List Lead) (ex : List String) (n : Nat),
      (∀ a ∈ lowerEmails df, a ∈ ex) → (lowerEmails df).Nodup →
      (lowerEmails (import_rows df ex n rows).1).Nodup := by
  induction rows with
  | nil => intro df ex n hsub hnd; simpa [import_rows] using hnd
  | cons r rest ih =>
    intro df ex n hsub hnd
    unfold import_rows
    dsimp only
    split_ifs with h1 h2
    · exact ih df ex n hsub hnd
    · exact ih df ex n hsub hnd
    · apply ih
      · intro a ha
        rw [show lowerEmails (df ++ [importLead r]) =
            lowerEmails df ++ [pyLower (rowEmail r)] by simp [lowerEmails, importLead]] at ha
        rcases List.mem_append.mp ha with h | h
        · exact List.mem_append_left _ (hsub a h)
        · exact List.mem_append_right _ h
      · rw [show lowerEmails (df ++ [importLead r]) =
            lowerEmails df ++ [pyLower (rowEmail r)] by simp [lowerEmails, importLead]]
        simp only [List.nodup_append]
        exact ⟨hnd, List.nodup_singleton _, by
          intro a ha hb
          rw [List.mem_singleton] at hb
          subst hb
          exact h2 (hsub _ ha)⟩

/-- Any sequence of clean upserts and CSV imports applied to a store
with no case-insensitive duplicate emails keeps that invariant. -/
theorem runOps_nodup_aux :
    ∀ (ops : List LeadOp) (df : List Lead), (∀ op ∈ ops, opClean op = true) →
      (lowerEmails df).Nodup → (lowerEmails (ops.foldl applyOp df)).Nodup := by
  intro ops
  induction ops with
  | nil => intro df hc hnd; simpa using hnd
  | cons op rest ih =>
    intro df hc hnd
    rw [List.foldl_cons]
    refine ih (applyOp df op) (fun o ho => hc o (List.mem_cons_of_mem _ ho)) ?_
    match op with
    | .upsert name email website phone source =>
      have hclean := hc _ (List.mem_cons_self _ _)
      simp only [opClean, decide_eq_true_eq] at hclean
      exact upsert_nodup name email website phone source df hclean hnd
    | .importCsv rows =>
      exact import_rows_nodup rows df (lowerEmails df) 0 (fun a ha => ha) hnd

/-- The CSV row produced for a stored lead by the export handler. -/
def exportRow (l : Lead) : CsvRow :=
  ⟨some l.Company, some l.Email, some l.Website, some l.Phone⟩

/-- Exporting a store whose emails are stripped, non-empty, pattern
valid and case-insensitively distinct, then importing the rows,
accepts every row in order. -/
theorem roundtrip_aux :
    ∀ (store pre : List Lead) (ex : List String) (n : Nat),
      (∀ l ∈ store, pyStrip l.Email = l.Email ∧ l.Email ≠ "" ∧
        email_match l.Email = true) →
      (∀ l ∈ store, pyLower l.Email ∉ ex) →
      (lowerEmails store).Nodup →
      import_rows pre ex n (export_rows store) =
        (pre ++ store.map (fun l => importLead (exportRow l)), n + store.length) := by
  intro store
  induction store with
  | nil => intro pre ex n hv hex hnd; simp [export_rows, import_rows]
  | cons l rest ih =>
    intro pre ex n hv hex hnd
    obtain ⟨hc, hne, hmatch⟩ := hv l (List.mem_cons_self l rest)
    have hrow : rowEmail (exportRow l) = l.Email := by
      simp [rowEmail, exportRow, hc]
    have hstep : export_rows (l :: rest) = exportRow l :: export_rows rest := by
      simp [export_rows, exportRow]
    rw [hstep]
    unfold import_rows
    dsimp only
    rw [hrow, if_neg (by simp [hne, hmatch]),
      if_neg (hex l (List.mem_cons_self l rest))]
    have hnd1 : (lowerEmails rest).Nodup := by
      have := hnd
      simp only [lowerEmails, List.map_cons, List.nodup_cons] at this
      exact this.2
    have hnotin : pyLower l.Email ∉ lowerEmails rest := by
      have := hnd
      simp only [lowerEmails, List.map_cons, List.nodup_cons] at this
      simpa [lowerEmails] using this.1
    rw [ih (pre ++ [importLead (exportRow l)]) (ex ++ [pyLower l.Email]) (n + 1)
      (fun x hx => hv x (List.mem_cons_of_mem _ hx))
      (fun x hx => by
        intro hmem
        rcases List.mem_append.mp hmem with h | h
        · exact hex x (List.mem_cons_of_mem _ hx) h
        · rw [List.mem_singleton] at h
          exact hnotin (h ▸ List.mem_map_of_mem (fun y => pyLower y.Email) hx))
      hnd1]
    refine Prod.ext ?_ ?_
    · simp [List.append_assoc]
    · simp; omega

/-! ### Claim theorems -/

/-- C2: the site filter is a pure function of the URL string returning
true for exactly those URLs whose network location is non-empty,
contains no blocklisted social/directory domain substring, and ends in
`.com`, `.net` or `.org`; every other URL is rejected. -/
theorem C2_site_filter_exact (u : String) :
    looks_like_business_site u = true ↔ isEligible_spec u := by
  dsimp only [looks_like_business_site, isEligible_spec]
  split_ifs with h1 h2
  · simp [h1]
  · simp only [false_iff]
    rintro ⟨-, hall, -⟩
    obtain ⟨s, hs, hcs⟩ := List.any_eq_true.mp h2
    have := hall s hs
    rw [this] at hcs
    exact Bool.false_ne_true hcs
  · simp only [Bool.or_eq_true]
    constructor
    · intro h
      refine ⟨h1, ?_, by tauto⟩
      intro s hs
      by_contra hne
      exact h2 (List.any_eq_true.mpr ⟨s, hs, by simpa using hne⟩)
    · rintro ⟨-, -, h⟩
      tauto

/-- C3: the campaign loop iterates the store's emails in store order
and sends at most the daily cap: it sends exactly the first `cap`
recipients the SMTP oracle accepts (so with 5 leads, a cap of 3 and
every send succeeding it sends exactly the first 3 and stops), skips a
per-recipient failure without aborting, and the returned recipients —
whose count the loop reports — number `min cap (number of sendable
recipients)` and appear in store order. -/
theorem C3_campaign_loop_cap :
    (∀ (cap : Nat) (ok : String → Bool) (emails : List String),
      send_campaign cap ok emails 0 = (emails.filter ok).take cap ∧
      (send_campaign cap ok emails 0).length = min cap (emails.countP ok) ∧
      (send_campaign cap ok emails 0).Sublist emails) ∧
    send_campaign 3 (fun _ => true) ["a", "b", "c", "d", "e"] 0 = ["a", "b", "c"] ∧
    send_campaign 3 (fun e => e ≠ "b") ["a", "b", "c", "d", "e"] 0 = ["a", "c", "d"] := by
  refine ⟨fun cap ok emails => ⟨?_, ?_, ?_⟩, by decide, by decide⟩
  · simpa using send_campaign_take cap ok emails 0
  · rw [send_campaign_take cap ok emails 0]
    simp [List.length_take, List.countP_eq_length_filter]
  · rw [send_campaign_take cap ok emails 0]
    exact (List.take_sublist _ _).trans (List.filter_sublist _)

/-- C5 counterexample: the claim asserts that in the generic SERP
branch the key expression produces an erroneous short-circuit, i.e.
that for some non-empty configured key the value passed is not the
configured key. This is false: there is no such key. -/
theorem C5_counterexample :
    ¬ ∃ k : String, k ≠ "" ∧ serp_key_argument k ≠ k := by
  rintro ⟨k, hk, hne⟩
  exact hne (by simp [serp_key_argument, hk])

/-- C5 amended: although `SERRP_KEY` appears textually before its
walrus assignment, a Python conditional expression evaluates its
condition (and thus the assignment) first, so the key argument of the
generic SERP branch is always exactly the configured key — the
intended pass-through, with no short-circuit and no `NameError`. -/
theorem C5_serp_key_passthrough (k : String) : serp_key_argument k = k := by
  unfold serp_key_argument
  by_cases h : k = "" <;> simp [h]

/-- C6: on the page with title `Acme Co | Flooring` and visible text
containing `contact@acme.com` and `(305) 123-4567`, the extractor
returns the company name truncated at the first `" | "` separator, the
first `EMAIL_RE` match and the first `PHONE_RE` match — and the phone
value is itself a full `PHONE_RE` match (length 14). -/
theorem C6_extractor_acme_example :
    extract_company_info (some "Acme Co | Flooring") none
        "Reach us at contact@acme.com or call (305) 123-4567 today" =
      (some "Acme Co", some "contact@acme.com", some "(305) 123-4567") ∧
    matchPhoneHere "(305) 123-4567".data = some 14 := by
  exact ⟨rfl, rfl⟩

/-- C7: for every base site the scan probes the five candidate pages
in the fixed order base, /contact, /contact-us, /about, /team; the
probe loop visits exactly the pages up to and including the first one
whose extraction yields a non-empty email, reports that page's lead
(no further pages of the site are probed), and sleeps the configurable
delay once after every probe that found no email. -/
theorem C7_candidate_page_policy :
    (∀ base : String,
      try_candidate_pages base =
        [base, pyRstripSlash base ++ "/contact",
          pyRstripSlash base ++ "/contact-us", pyRstripSlash base ++ "/about",
          pyRstripSlash base ++ "/team"]) ∧
    (∀ (f : String → Option String × Option String × Option String)
        (l : List String),
      probe_pages f l =
        (l.take (foundIdx f l + 1), min (foundIdx f l) l.length,
          (l.get? (foundIdx f l)).map (fun p => (p, f p)))) ∧
    probe_pages
        (fun p => (none, if p = "https://x.com/about" then some "e@a.com" else none, none))
        (try_candidate_pages "https://x.com") =
      (["https://x.com", "https://x.com/contact", "https://x.com/contact-us",
        "https://x.com/about"], 3,
        some ("https://x.com/about", (none, some "e@a.com", none))) := by
  exact ⟨fun base => rfl, probe_pages_eq, rfl⟩

/-- The extraction oracle for the duplicate-email scan example: every
page of every site exposes the same contact email. -/
def dupEmailOracle : String → Option String × Option String × Option String :=
  fun _ => (some "Acme", some "shared@x.com", none)

/-- C10: the `Added N contacts` counter of the Search & Extract scan
is incremented whenever a probed page yields a non-empty email, even
when `upsert_lead` silently drops the lead as a case-insensitive
duplicate: scanning two sites that expose the same email reports 2
added contacts while the lead store gains only 1 row. -/
theorem C10_added_counter_overcounts :
    (scan_sites dupEmailOracle "serp" [] ["https://a.com", "https://b.com"]).2 = 2 ∧
    (scan_sites dupEmailOracle "serp" [] ["https://a.com", "https://b.com"]).1.length = 1 := by
  exact ⟨rfl, by decide⟩

/-- C1 counterexample: the claim quantifies over every email string,
but `upsert_lead` strips the stored email while comparing the unstripped
lowercase form, so upserting the literal same whitespace-padded email
twice inserts two rows whose stored Email values are equal — violating
both the first-writer-wins no-op and the case-insensitive uniqueness
invariant. -/
theorem C1_counterexample :
    (upsert_lead none " a@x.com" "w" none "s"
      (upsert_lead none " a@x.com" "w" none "s" [])).length = 2 ∧
    lowerEmails (upsert_lead none " a@x.com" "w" none "s"
      (upsert_lead none " a@x.com" "w" none "s" [])) = ["a@x.com", "a@x.com"] ∧
    ¬ (lowerEmails (upsert_lead none " a@x.com" "w" none "s"
        (upsert_lead none " a@x.com" "w" none "s" []))).Nodup := by
  refine ⟨rfl, rfl, by decide⟩

/-- C1 amended: restricted to emails equal to their own stripped form —
which covers every email the application passes to `upsert_lead`, since
extractor emails are `EMAIL_RE` matches and import emails are stripped —
the claim holds: (1) any sequence of such upserts and CSV imports keeps
the store free of case-insensitive duplicate emails, and (2) upserting
the same non-empty email again in any letter case is a silent no-op,
leaving the store (and hence the first-inserted attributes) unchanged. -/
theorem C1_first_writer_wins :
    (∀ ops : List LeadOp, (∀ op ∈ ops, opClean op = true) →
      (lowerEmails (runOps ops)).Nodup) ∧
    (∀ (df : List Lead) (n1 : Option String) (e w1 : String) (p1 : Option String)
        (s1 : String) (n2 : Option String) (e2 w2 : String) (p2 : Option String)
        (s2 : String),
      pyStrip e = e → e ≠ "" → pyLower e2 = pyLower e →
      upsert_lead n2 e2 w2 p2 s2 (upsert_lead n1 e w1 p1 s1 df) =
        upsert_lead n1 e w1 p1 s1 df) := by
  constructor
  · intro ops hc
    exact runOps_nodup_aux ops [] hc (by simp [lowerEmails])
  · intro df n1 e w1 p1 s1 n2 e2 w2 p2 s2 hc he hlow
    apply upsert_noop
    right
    rw [hlow]
    exact upsert_mem_lower n1 e w1 p1 s1 df hc he

/-- C1 witness: a concrete clean operation sequence keeps the invariant,
and a concrete second upsert of the same email in different case is a
no-op. -/
theorem C1_witness :
    ((∀ op ∈ [LeadOp.upsert (some "N") "a@x.com" "w" none "serp",
        LeadOp.importCsv [⟨some "C", some "b@y.com", none, none⟩]], opClean op = true) ∧
      pyStrip "a@x.com" = "a@x.com" ∧ "a@x.com" ≠ "" ∧
      pyLower "A@X.com" = pyLower "a@x.com") ∧
    (lowerEmails (runOps [LeadOp.upsert (some "N") "a@x.com" "w" none "serp",
      LeadOp.importCsv [⟨some "C", some "b@y.com", none, none⟩]])).Nodup ∧
    upsert_lead none "A@X.com" "w2" none "s2"
        (upsert_lead (some "N") "a@x.com" "w" none "s" []) =
      upsert_lead (some "N") "a@x.com" "w" none "s" [] := by
  refine ⟨⟨by decide, by decide, by decide, by decide⟩, ?_, ?_⟩
  · exact C1_first_writer_wins.1 _ (by decide)
  · exact C1_first_writer_wins.2 [] (some "N") "a@x.com" "w" none "s" none "A@X.com"
      "w2" none "s2" (by decide) (by decide) (by decide)

/-- C4 counterexample: the claim says a non-2xx status yields an empty
sequence, but `raise_for_status` only raises for 4xx/5xx: a 300 status
with a well-formed body is processed normally and returns URLs. -/
theorem C4_counterexample :
    search_bing_api "q" "k" 5 (some (300,
        some (Json.jdict [("webPages", Json.jdict [("value",
          Json.jarr [Json.jdict [("url", Json.jstr "https://a.com")]])])]))) =
      ["https://a.com"] ∧
    search_bing_api "q" "k" 5 (some (300,
        some (Json.jdict [("webPages", Json.jdict [("value",
          Json.jarr [Json.jdict [("url", Json.jstr "https://a.com")]])])]))) ≠ [] := by
  refine ⟨rfl, by decide⟩

/-- C4 amended: both search adapters fail soft — a transport error
(timeout), a 4xx/5xx status (the range `raise_for_status` raises for),
a malformed JSON body, or an absent required API key (and for the
generic adapter an absent base URL) each yield an empty sequence, and
no error is ever raised to the caller (the catch-all handler converts
every in-`try` exception, modelled by the `Option` layer, into `[]`);
statuses outside 400–599 are treated as success. -/
theorem C4_adapters_fail_soft :
    (∀ (q k : String) (c : Nat),
      search_bing_api q k c none = [] ∧
      (∀ r, search_bing_api q "" c r = []) ∧
      (∀ s b, 400 ≤ s → s < 600 → search_bing_api q k c (some (s, b)) = []) ∧
      (∀ s, search_bing_api q k c (some (s, none)) = [])) ∧
    (∀ (q b k : String) (c : Nat),
      search_serp_api q b k c none = [] ∧
      (∀ r, search_serp_api q b "" c r = []) ∧
      (∀ r, search_serp_api q "" k c r = []) ∧
      (∀ s bd, 400 ≤ s → s < 600 → search_serp_api q b k c (some (s, bd)) = []) ∧
      (∀ s, search_serp_api q b k c (some (s, none)) = [])) := by
  constructor
  · intro q k c
    refine ⟨?_, fun r => ?_, fun s b h4 h6 => ?_, fun s => ?_⟩
    · by_cases hk : k = "" <;> simp [search_bing_api, hk]
    · simp [search_bing_api]
    · by_cases hk : k = ""
      · simp [search_bing_api, hk]
      · simp only [search_bing_api, if_neg hk]
        rw [if_pos ⟨h4, h6⟩]
    · by_cases hk : k = ""
      · simp [search_bing_api, hk]
      · by_cases hs : 400 ≤ s ∧ s < 600 <;>
          simp [search_bing_api, hk, hs]
  · intro q b k c
    refine ⟨?_, fun r => ?_, fun r => ?_, fun s bd h4 h6 => ?_, fun s => ?_⟩
    · by_cases hb : b = "" ∨ k = "" <;> simp [search_serp_api, hb]
    · simp [search_serp_api]
    · simp [search_serp_api]
    · by_cases hb : b = "" ∨ k = ""
      · simp [search_serp_api, hb]
      · simp only [search_serp_api, if_neg hb]
        rw [if_pos ⟨h4, h6⟩]
    · by_cases hb : b = "" ∨ k = ""
      · simp [search_serp_api, hb]
      · by_cases hs : 400 ≤ s ∧ s < 600 <;>
          simp [search_serp_api, hb, hs]

/-- C4 witness: concrete error responses produce empty results through
the amended fail-soft theorem. -/
theorem C4_witness :
    ((400 ≤ 404 ∧ 404 < 600) ∧ (400 ≤ 503 ∧ 503 < 600)) ∧
    search_bing_api "q" "k" 5 (some (404, some Json.jnull)) = [] ∧
    search_serp_api "q" "http://s" "k" 5 (some (503, some Json.jnull)) = [] := by
  refine ⟨⟨by decide, by decide⟩, ?_, ?_⟩
  · exact (C4_adapters_fail_soft.1 "q" "k" 5).2.2.1 404 (some Json.jnull)
      (by decide) (by decide)
  · exact (C4_adapters_fail_soft.2 "q" "http://s" "k" 5).2.2.2.1 503 (some Json.jnull)
      (by decide) (by decide)

/-- C8 counterexample: the claim quantifies over every lead store, but
a store holding an email that fails `EMAIL_RE.match` (possible through
the `upsert` contract, which does not validate) loses that row on
re-import, so the email sets differ. -/
theorem C8_counterexample :
    (import_leads [] (export_rows [⟨"Co", "not-an-email", "w", "p", "serp"⟩])).1.map
        (fun l => l.Email) = [] ∧
    [⟨"Co", "not-an-email", "w", "p", "serp"⟩].map (fun l => Lead.Email l) =
      ["not-an-email"] ∧
    ([] : List String) ≠ ["not-an-email"] := by
  refine ⟨rfl, rfl, by decide⟩

/-- C8 amended: for every lead store whose stored emails are stripped,
non-empty, `EMAIL_RE`-valid and case-insensitively distinct — which is
true of every store the application builds, since extractor emails are
`EMAIL_RE` matches and imported emails are validated — exporting to CSV
rows and re-importing into an empty store reproduces exactly the same
email sequence (hence the same set, order-insensitively), with an
accurate imported count. -/
theorem C8_export_import_roundtrip (store : List Lead)
    (hv : ∀ l ∈ store, pyStrip l.Email = l.Email ∧ l.Email ≠ "" ∧
      email_match l.Email = true)
    (hnd : (lowerEmails store).Nodup) :
    (import_leads [] (export_rows store)).1.map (fun l => l.Email) =
      store.map (fun l => l.Email) ∧
    (import_leads [] (export_rows store)).2 = store.length := by
  have h := roundtrip_aux store [] [] 0 hv (by simp) hnd
  have hentry : import_leads [] (export_rows store) =
      import_rows [] [] 0 (export_rows store) := by
    simp [import_leads, lowerEmails]
  rw [hentry, h]
  constructor
  · simp only [List.nil_append, List.map_map]
    refine List.map_congr_left ?_
    intro l hl
    obtain ⟨hc, -, -⟩ := hv l hl
    simp [importLead, exportRow, rowEmail, hc]
  · simp

/-- C8 witness: a concrete valid two-lead store round-trips exactly. -/
theorem C8_witness :
    ((∀ l ∈ [Lead.mk "A" "a@x.com" "w" "p" "serp", Lead.mk "B" "B@y.net" "" "" "bing"],
        pyStrip l.Email = l.Email ∧ l.Email ≠ "" ∧ email_match l.Email = true) ∧
      (lowerEmails [Lead.mk "A" "a@x.com" "w" "p" "serp",
        Lead.mk "B" "B@y.net" "" "" "bing"]).Nodup) ∧
    (import_leads [] (export_rows [Lead.mk "A" "a@x.com" "w" "p" "serp",
        Lead.mk "B" "B@y.net" "" "" "bing"])).1.map (fun l => l.Email) =
      ["a@x.com", "B@y.net"] ∧
    (import_leads [] (export_rows [Lead.mk "A" "a@x.com" "w" "p" "serp",
        Lead.mk "B" "B@y.net" "" "" "bing"])).2 = 2 := by
  refine ⟨⟨by decide, by decide⟩, ?_⟩
  have h := C8_export_import_roundtrip
    [Lead.mk "A" "a@x.com" "w" "p" "serp", Lead.mk "B" "B@y.net" "" "" "bing"]
    (by decide) (by decide)
  exact ⟨h.1, h.2⟩

/-- C9: the CSV import validates each row's email against `EMAIL_RE`
and skips every row whose email is invalid or already present
case-insensitively; each accepted row is inserted (in order, after the
existing rows) with source tag `"import"` and missing company/website/
phone defaulted to the empty string (company truncated to 120), the
store keeps its no-duplicate invariant, and the reported imported count
equals exactly the number of rows actually inserted. -/
theorem C9_import_validation (df : List Lead) (rows : List CsvRow)
    (hnd : (lowerEmails df).Nodup) :
    ∃ new : List Lead,
      import_leads df rows = (df ++ new, new.length) ∧
      (∀ l ∈ new, l.Source = "import" ∧ email_match l.Email = true ∧
        l.Email ≠ "" ∧ pyLower l.Email ∉ lowerEmails df ∧
        ∃ r ∈ rows, l = importLead r) ∧
      (lowerEmails (df ++ new)).Nodup := by
  obtain ⟨new, heq, hprops⟩ := import_rows_spec rows df (lowerEmails df) 0
  refine ⟨new, by simpa [import_leads] using heq, hprops, ?_⟩
  have h := import_rows_nodup rows df (lowerEmails df) 0 (fun a ha => ha) hnd
  rw [heq] at h
  exact h

/-- C9 witness: importing a valid row, an invalid row and a duplicate
row into a one-lead store inserts exactly the valid new row. -/
theorem C9_witness :
    (lowerEmails [Lead.mk "A" "a@x.com" "" "" "serp"]).Nodup ∧
    ∃ new : List Lead,
      import_leads [Lead.mk "A" "a@x.com" "" "" "serp"]
          [⟨some "C", some "b@y.com", some "w", none⟩,
            ⟨none, some "zzz", none, none⟩,
            ⟨none, some "A@X.COM", none, none⟩] =
        ([Lead.mk "A" "a@x.com" "" "" "serp"] ++ new, new.length) ∧
      (∀ l ∈ new, l.Source = "import" ∧ email_match l.Email = true ∧
        l.Email ≠ "" ∧ pyLower l.Email ∉
          lowerEmails [Lead.mk "A" "a@x.com" "" "" "serp"] ∧
        ∃ r ∈ [(⟨some "C", some "b@y.com", some "w", none⟩ : CsvRow),
            ⟨none, some "zzz", none, none⟩, ⟨none, some "A@X.COM", none, none⟩],
          l = importLead r) ∧
      (lowerEmails ([Lead.mk "A" "a@x.com" "" "" "serp"] ++ new)).Nodup := by
  exact ⟨by decide, C9_import_validation _ _ (by decide)⟩

end Prospector
